import Mathlib

set_option maxHeartbeats 1000000

/-
Verification development for the IrisVA voice-trigger front end
(src/src/main.rs).  The Rust source is shallowly embedded below:

* transcripts are modeled as lists of characters (the program only ever
  deals with ASCII wake phrases, so Char.toLower / Char.isWhitespace
  faithfully model the trim and to_lowercase calls used by the source);
* i16 / u16 / i32 sample values are modeled as Int (the i32 accumulator
  in the downmix loops cannot overflow: cpal channel counts are u16, so
  the frame sum is bounded by 65535 * 32768 < 2^31);
* the u32 CALL_COUNT static wraps, which is modeled with an explicit
  mod 2^32;
* the fallible rotation step (Recognizer::new returning no session,
  which the source unwraps) is modeled with Option, a none result
  standing for the unwrap terminating that execution.
-/

/-! ## Strings: trim, to_lowercase, substring find (main.rs 559-581) -/

abbrev Str : Type := List Char

def isWsChar (c : Char) : Bool := c.isWhitespace

/-- Model of str::trim, restricted to ASCII whitespace. -/
def trimStr (s : Str) : Str :=
  ((s.dropWhile isWsChar).reverse.dropWhile isWsChar).reverse

/-- Model of str::to_lowercase, restricted to ASCII letters. -/
def lowerStr (s : Str) : Str := s.map Char.toLower

/-- Mirrors the idiom text.trim().to_lowercase() used by both
contains_wake_word and is_just_wake_word. -/
def normalizeText (s : Str) : Str := lowerStr (trimStr s)

/-- Model of str::find: byte index of the leftmost occurrence of w in t
(char index here; the haystack is ASCII). -/
def firstOccur : Str → Str → Option Nat
  | [], w => if w = [] then some 0 else none
  | c :: rest, w =>
    if w.isPrefixOf (c :: rest) then some 0
    else (firstOccur rest w).map (fun n => n + 1)

/-- The loop body of contains_wake_word (main.rs 565-574): walk the wake
word list in order; on the first phrase found in t, return the phrase,
extended with the trimmed text after the match when that is non-empty. -/
def cwwFind (t : Str) : List Str → Option Str
  | [] => none
  | w :: rest =>
    match firstOccur t w with
    | some pos =>
        if trimStr (t.drop (pos + w.length)) = [] then some w
        else some (w ++ ' ' :: trimStr (t.drop (pos + w.length)))
    | none => cwwFind t rest

/-- main.rs 559-576. -/
def contains_wake_word (text : Str) (ws : List Str) : Option Str :=
  if normalizeText text = [] then none else cwwFind (normalizeText text) ws

/-- main.rs 578-581. -/
def is_just_wake_word (text : Str) (ws : List Str) : Bool :=
  ws.any (fun w => normalizeText text == w)

/-- main.rs 10: const DEFAULT_WAKE. -/
def DEFAULT_WAKE : List Str := [("hey iris").data]

/-! ## Audio downmix (main.rs 398-550) -/

/-- Rust i32::clamp(i16::MIN as i32, i16::MAX as i32). -/
def clampI16 (x : Int) : Int :=
  if x < -32768 then -32768 else if x > 32767 then 32767 else x

/-- Recursion core of the chunks_exact model, structurally recursive on
an explicit fuel so that concrete inputs evaluate inside the kernel; the
fuel is always instantiated with the list length, which bounds the
number of frames whenever 0 < c. -/
def chunksExactAux : Nat → Nat → List Int → List (List Int)
  | 0, _, _ => []
  | fuel + 1, c, l =>
    if 0 < c ∧ c ≤ l.length then l.take c :: chunksExactAux fuel c (l.drop c)
    else []

/-- Model of slice::chunks_exact: the ⌊length / c⌋ full frames, the
remainder dropped. -/
def chunksExact (c : Nat) (l : List Int) : List (List Int) :=
  chunksExactAux l.length c l

/-- One frame of the i16 downmix loop (main.rs 415-421): sum the raw
channel samples in an i32 accumulator, divide by the channel count with
truncation toward zero, clamp. -/
def frameAvgI16 (c : Nat) (frame : List Int) : Int :=
  clampI16 (Int.tdiv (frame.foldl (fun acc s => acc + s) 0) (c : Int))

/-- One frame of the u16 downmix loop (main.rs 467-473): each channel
sample is converted by subtracting 32768 before it is accumulated. -/
def frameAvgU16 (c : Nat) (frame : List Int) : Int :=
  clampI16 (Int.tdiv (frame.foldl (fun acc s => acc + (s - 32768)) 0) (c : Int))

/-- The pcm_mono construction of build_input_stream_i16 (main.rs 410-423). -/
def downmix_i16 (channels : Nat) (data : List Int) : List Int :=
  if channels ≤ 1 then data
  else (chunksExact channels data).map (frameAvgI16 channels)

/-- The pcm_mono construction of build_input_stream_u16 (main.rs 459-475). -/
def downmix_u16 (channels : Nat) (data : List Int) : List Int :=
  if channels ≤ 1 then data.map (fun s => s - 32768)
  else (chunksExact channels data).map (fun f => frameAvgU16 channels f)

/-- Modelled from the spec words of claim C3, for comparison with
downmix_u16: sum the raw channel values, divide by C with truncation
toward zero, and only then subtract 32768 and clamp. -/
def downmix_u16_claimed (channels : Nat) (data : List Int) : List Int :=
  (chunksExact channels data).map (fun f =>
    clampI16 (Int.tdiv (f.foldl (fun acc s => acc + s) 0) (channels : Int) - 32768))

/-! ## Listening state machine and recognizer state (main.rs 12-16, 583-651) -/

/-- main.rs 12-16, with Instant modeled as a millisecond count. -/
inductive LState
  | idle
  | wakeDetected (time : Nat)
deriving DecidableEq

/-- One vosk Recognizer session: an opaque session identity plus the
waveform the engine has accumulated since its last reset.  The four
configuration setters called by the source (set_max_alternatives and
friends) configure the external engine and carry no state the claims
observe, so they are not represented. -/
structure RecState where
  sessionId : Nat
  pending : List Int
deriving DecidableEq

/-- The shared flags of the orchestrator that create_waveform_match
touches: the triggered flag, the listening state, the CALL_COUNT static
(a u32, kept below 2^32 by the explicit wrap), and the command text last
bound into the [COMMAND] output line, recorded for observability. -/
structure Machine where
  triggered : Bool
  state : LState
  lastCommand : Option Str
  callCount : Nat
deriving DecidableEq

/-- Outcome of Recognizer::accept_waveform together with the text later
extracted from the finalized result JSON (none when extraction fails). -/
inductive DecodeOutcome
  | running
  | finalized (text : Option Str)
  | pushErr
deriving DecidableEq

/-- main.rs 583-651: one call of create_waveform_match, acting on the
recognizer it was handed (the caller passes the active slot) and on the
shared machine state.  pcm is the chunk pushed by this call and now the
Instant::now() timestamp of the call. -/
def create_waveform_match (outcome : DecodeOutcome) (pcm : List Int)
    (ws : List Str) (now : Nat) (r : RecState) (m : Machine) :
    RecState × Machine :=
  match outcome with
  | .running =>
      (if ((m.callCount + 1) % 4294967296) % 1000 = 0
         then { r with pending := [] }
         else { r with pending := r.pending ++ pcm },
       { m with callCount := (m.callCount + 1) % 4294967296 })
  | .pushErr => (r, m)
  | .finalized none => ({ r with pending := [] }, m)
  | .finalized (some text) =>
      ({ r with pending := [] },
       match m.state with
       | .idle =>
           match contains_wake_word text ws with
           | none => m
           | some fullCmd =>
               if is_just_wake_word text ws
                 then { m with state := .wakeDetected now }
                 else { m with triggered := true, lastCommand := some fullCmd }
       | .wakeDetected _ =>
           if trimStr text = [] then m
           else { m with triggered := true,
                         lastCommand := some (trimStr text),
                         state := .idle })

/-- n successive capture pushes for which the engine stays Running. -/
def iterRunning (pcm : List Int) (ws : List Str) (now : Nat) :
    Nat → RecState × Machine → RecState × Machine
  | 0, x => x
  | n + 1, x =>
      create_waveform_match .running pcm ws now
        (iterRunning pcm ws now n x).1 (iterRunning pcm ws now n x).2

/-! ## Recognizer pool and rotation (main.rs 260-291) -/

/-- The [Recognizer; 2] array plus the active index (a u8 holding 0 or 1). -/
structure Pool where
  slot0 : RecState
  slot1 : RecState
  active : Nat
deriving DecidableEq

def Pool.get (p : Pool) (i : Nat) : RecState :=
  if i = 0 then p.slot0 else p.slot1

def Pool.set (p : Pool) (i : Nat) (r : RecState) : Pool :=
  if i = 0 then { p with slot0 := r } else { p with slot1 := r }

/-- One tick of the rotation thread (main.rs 266-291): read the active
index, compute inactive = 1 - active, construct a fresh session, replace
the inactive slot, and only then store the new active index.  factory is
the result of Recognizer::new; the source unwraps it, so a construction
failure (none) aborts the tick with no successor state. -/
def rotate_tick (factory : Option RecState) (p : Pool) : Option Pool :=
  match factory with
  | none => none
  | some fresh =>
      some { Pool.set p (1 - p.active) fresh with active := 1 - p.active }

/-- reset of the active recognizer as done by the supervisory loop
(main.rs 377-380): clears accumulated state, keeps the same session. -/
def resetActivePool (p : Pool) : Pool :=
  Pool.set p p.active { Pool.get p p.active with pending := [] }

/-! ## Supervisory loop (main.rs 344-395) -/

/-- The shared state the supervisory loop reads and writes. -/
structure SupState where
  pool : Pool
  errFlag : Option Str
  triggered : Bool
  lstate : LState
  listeningPrinted : Bool
deriving DecidableEq

/-- Result of one supervisory iteration: the new shared state plus which
observable actions the iteration performed. -/
structure SupOut where
  st : SupState
  resetActive : Bool
  processed : Bool
  errReported : Bool
deriving DecidableEq

/-- One iteration of the supervisory loop body (main.rs 346-391), with
now the current time in milliseconds and elapsed = now - time. -/
def sup_iter (now : Nat) (s : SupState) : SupOut :=
  match s.errFlag with
  | some _ =>
      ⟨{ s with errFlag := none, triggered := false, lstate := .idle,
                listeningPrinted := false }, false, false, true⟩
  | none =>
      if s.triggered then
        ⟨{ s with triggered := false, lstate := .idle,
                  listeningPrinted := false }, false, true, false⟩
      else
        match s.lstate with
        | .wakeDetected t =>
            if 350 < now - t then
              if 3000 < now - t then
                ⟨{ s with lstate := .idle, listeningPrinted := false,
                          pool := resetActivePool s.pool }, true, false, false⟩
              else ⟨{ s with listeningPrinted := true }, false, false, false⟩
            else ⟨s, false, false, false⟩
        | .idle => ⟨{ s with listeningPrinted := false }, false, false, false⟩

/-! ## TriggerSignal interleaving model (main.rs 355-361 and 617-631)

The triggered flag is shared between the capture callback (which sets
it) and the supervisory loop (which drains it).  Each mutex-protected
access is atomic, so a concurrent execution is a sequence of atomic
actions: fire (the state machine sets the flag after recognizing a
command) and drain (the supervisory loop observes the flag set, emits
the external event, and clears it).  The model is generous to the claim:
it even treats the check-then-clear pair of the loop as one atomic
action, although the source takes the lock twice. -/

inductive TrigAct
  | fire
  | drain
deriving DecidableEq

structure TrigState where
  triggered : Bool
  fired : Nat
  delivered : Nat
deriving DecidableEq

def trigStep (s : TrigState) (a : TrigAct) : TrigState :=
  match a with
  | .fire => { s with triggered := true, fired := s.fired + 1 }
  | .drain =>
      if s.triggered
        then { triggered := false, fired := s.fired,
               delivered := s.delivered + 1 }
        else s

def trigRun (acts : List TrigAct) : TrigState :=
  acts.foldl trigStep ⟨false, 0, 0⟩

/-! ## Helper lemmas -/

lemma resetActive_facts (p : Pool) (h : p.active ≤ 1) :
    (resetActivePool p).active = p.active
    ∧ ((resetActivePool p).get p.active).sessionId = (p.get p.active).sessionId
    ∧ ((resetActivePool p).get p.active).pending = []
    ∧ (resetActivePool p).get (1 - p.active) = p.get (1 - p.active) := by
  rcases p with ⟨s0, s1, a⟩
  have h' : a ≤ 1 := h
  interval_cases a <;> exact ⟨rfl, rfl, rfl, rfl⟩

lemma iterRunning_callCount (pcm : List Int) (ws : List Str) (now : Nat)
    (r : RecState) (m : Machine) :
    ∀ n : Nat,
      (iterRunning pcm ws now n (r, { m with callCount := 0 })).2.callCount
        = n % 4294967296 := by
  intro n
  induction n with
  | zero => simp [iterRunning]
  | succ k ih =>
      simp only [iterRunning, create_waveform_match]
      rw [ih]
      omega

lemma trigStep_inv (s : TrigState) (a : TrigAct)
    (h : s.delivered + (if s.triggered then 1 else 0) ≤ s.fired) :
    (trigStep s a).delivered + (if (trigStep s a).triggered then 1 else 0)
      ≤ (trigStep s a).fired := by
  cases a <;> cases hb : s.triggered <;>
    simp [trigStep, hb] at h ⊢ <;> omega

lemma trigRun_inv :
    ∀ (acts : List TrigAct) (s : TrigState),
      s.delivered + (if s.triggered then 1 else 0) ≤ s.fired →
      (acts.foldl trigStep s).delivered
          + (if (acts.foldl trigStep s).triggered then 1 else 0)
        ≤ (acts.foldl trigStep s).fired := by
  intro acts
  induction acts with
  | nil => intro s h; exact h
  | cons a rest ih =>
      intro s h
      exact ih (trigStep s a) (trigStep_inv s a h)

/-! ## Claims -/

/-- C1: the claim reads that a failed session construction during a
rotation tick leaves the slot pair and ActiveIndex unchanged and
execution continues.  The source instead unwraps the construction
result (main.rs 279), so the tick aborts by panicking inside the
recognizers lock: evaluated at a failing factory, the rotation step has
no successor state at all, rather than the unchanged one the claim
requires. -/
theorem c1_construction_failure_panics :
    rotate_tick none (Pool.mk (RecState.mk 0 []) (RecState.mk 1 []) 0) = none :=
  rfl

/-- C2: the claim reads that the single-utterance fast path fires with
the command equal to exactly the trailing text after the wake phrase.
Evaluating the code on the transcript containing the wake phrase plus
trailing words shows the trigger does fire and the state stays Idle, but
the command bound into the output is the full matched text including the
wake phrase, not the trailing text alone. -/
theorem c2_fast_path_command_includes_wake :
    (create_waveform_match
      (DecodeOutcome.finalized (some (("hey iris turn off the lights").data)))
      [] DEFAULT_WAKE 0 (RecState.mk 0 []) (Machine.mk false LState.idle none 0)).2
    = Machine.mk true LState.idle
        (some (("hey iris turn off the lights").data)) 0 := by
  decide

/-- C5: while WakeDetected, any finalized transcript that is non-empty
after trimming fires the trigger, records the trimmed text as the
command body, and returns the state to Idle. -/
theorem c5_command_after_wake (text : Str) (pcm : List Int) (ws : List Str)
    (now t : Nat) (r : RecState) (m : Machine)
    (hs : m.state = LState.wakeDetected t) (ht : trimStr text ≠ []) :
    (create_waveform_match (.finalized (some text)) pcm ws now r m).2.triggered = true
    ∧ (create_waveform_match (.finalized (some text)) pcm ws now r m).2.state
        = LState.idle
    ∧ (create_waveform_match (.finalized (some text)) pcm ws now r m).2.lastCommand
        = some (trimStr text) := by
  simp [create_waveform_match, hs, ht]

/-- C5 witness. -/
theorem c5_witness :
    (create_waveform_match
        (.finalized (some (("turn on the lights").data))) [] DEFAULT_WAKE 400
        (RecState.mk 0 []) (Machine.mk false (LState.wakeDetected 0) none 0)).2.triggered
      = true
    ∧ (create_waveform_match
        (.finalized (some (("turn on the lights").data))) [] DEFAULT_WAKE 400
        (RecState.mk 0 []) (Machine.mk false (LState.wakeDetected 0) none 0)).2.state
      = LState.idle
    ∧ (create_waveform_match
        (.finalized (some (("turn on the lights").data))) [] DEFAULT_WAKE 400
        (RecState.mk 0 []) (Machine.mk false (LState.wakeDetected 0) none 0)).2.lastCommand
      = some (trimStr ("turn on the lights").data) :=
  c5_command_after_wake ("turn on the lights").data [] DEFAULT_WAKE 400 0
    (RecState.mk 0 []) (Machine.mk false (LState.wakeDetected 0) none 0)
    (by decide) (by decide)

/-- C6: while Idle, a finalized transcript whose trimmed lower-cased
form is exactly the configured wake phrase moves the state to
WakeDetected carrying the current timestamp, and neither the triggered
flag nor the recorded command is touched. -/
theorem c6_exact_wake_to_wakeDetected (text : Str) (pcm : List Int)
    (now : Nat) (r : RecState) (m : Machine)
    (hs : m.state = LState.idle)
    (hn : normalizeText text = ("hey iris").data) :
    (create_waveform_match (.finalized (some text)) pcm DEFAULT_WAKE now r m).2.state
        = LState.wakeDetected now
    ∧ (create_waveform_match (.finalized (some text)) pcm DEFAULT_WAKE now r m).2.triggered
        = m.triggered
    ∧ (create_waveform_match (.finalized (some text)) pcm DEFAULT_WAKE now r m).2.lastCommand
        = m.lastCommand := by
  have hc : contains_wake_word text DEFAULT_WAKE = some (("hey iris").data) := by
    simp only [contains_wake_word, hn]
    decide
  have hj : is_just_wake_word text DEFAULT_WAKE = true := by
    simp only [is_just_wake_word, hn]
    decide
  simp [create_waveform_match, hs, hc, hj]

/-- C6 witness. -/
theorem c6_witness :
    (create_waveform_match (.finalized (some ((" Hey IRIS ").data))) [] DEFAULT_WAKE 42
        (RecState.mk 0 []) (Machine.mk false LState.idle none 0)).2.state
      = LState.wakeDetected 42
    ∧ (create_waveform_match (.finalized (some ((" Hey IRIS ").data))) [] DEFAULT_WAKE 42
        (RecState.mk 0 []) (Machine.mk false LState.idle none 0)).2.triggered
      = (Machine.mk false LState.idle none 0).triggered
    ∧ (create_waveform_match (.finalized (some ((" Hey IRIS ").data))) [] DEFAULT_WAKE 42
        (RecState.mk 0 []) (Machine.mk false LState.idle none 0)).2.lastCommand
      = (Machine.mk false LState.idle none 0).lastCommand :=
  c6_exact_wake_to_wakeDetected ((" Hey IRIS ").data) [] 42
    (RecState.mk 0 []) (Machine.mk false LState.idle none 0)
    (by decide) (by decide)

/-- C8: a rotation tick whose construction succeeds replaces only the
inactive slot 1 - active, leaves the active slot untouched, and flips
the active index to the freshly replaced slot, which stays in 0..1. -/
theorem c8_rotation_replaces_inactive (p : Pool) (fresh : RecState)
    (h : p.active ≤ 1) :
    ∃ p', rotate_tick (some fresh) p = some p'
      ∧ p'.active = 1 - p.active
      ∧ p'.active ≤ 1
      ∧ p'.get p.active = p.get p.active
      ∧ p'.get p'.active = fresh := by
  rcases p with ⟨s0, s1, a⟩
  have h' : a ≤ 1 := h
  interval_cases a
  · exact ⟨⟨s0, fresh, 1⟩, rfl, rfl, Nat.le_refl 1, rfl, rfl⟩
  · exact ⟨⟨fresh, s1, 0⟩, rfl, rfl, Nat.zero_le 1, rfl, rfl⟩

/-- C8 witness. -/
theorem c8_witness :
    ∃ p', rotate_tick (some (RecState.mk 2 []))
            (Pool.mk (RecState.mk 0 []) (RecState.mk 1 []) 0) = some p'
      ∧ p'.active = 1 - (Pool.mk (RecState.mk 0 []) (RecState.mk 1 []) 0).active
      ∧ p'.active ≤ 1
      ∧ p'.get (Pool.mk (RecState.mk 0 []) (RecState.mk 1 []) 0).active
          = (Pool.mk (RecState.mk 0 []) (RecState.mk 1 []) 0).get
              (Pool.mk (RecState.mk 0 []) (RecState.mk 1 []) 0).active
      ∧ p'.get p'.active = RecState.mk 2 [] :=
  c8_rotation_replaces_inactive
    (Pool.mk (RecState.mk 0 []) (RecState.mk 1 []) 0) (RecState.mk 2 [])
    (by decide)

/-- C9 counterexample: exactly-once delivery fails.  In the interleaving
in which the state machine fires twice before the supervisory loop runs,
two episodes are fired but only one delivery happens, and no delivery
remains pending afterwards: the second episode has been lost, and the
flag was set again before it was observed and cleared. -/
theorem c9_two_fires_one_delivery :
    (trigRun [TrigAct.fire, TrigAct.fire, TrigAct.drain, TrigAct.drain]).fired = 2
    ∧ (trigRun [TrigAct.fire, TrigAct.fire, TrigAct.drain, TrigAct.drain]).delivered = 1
    ∧ (trigRun [TrigAct.fire, TrigAct.fire, TrigAct.drain, TrigAct.drain]).triggered
        = false := by
  decide

/-- C9 amended: in every interleaving of fire and drain actions the
number of deliveries (plus the one episode still pending when the flag
is set) never exceeds the number of fired episodes, so no trigger
episode is ever duplicated; exactly-once fails only by coalescing, as
the counterexample shows. -/
theorem c9_no_duplication (acts : List TrigAct) :
    (trigRun acts).delivered + (if (trigRun acts).triggered then 1 else 0)
      ≤ (trigRun acts).fired := by
  apply trigRun_inv
  simp

/-- C4: one supervisory iteration observing no error, no pending
trigger, and a WakeDetected state older than the 3 s timeout forces the
state back to Idle, resets the active recognizer in place (same session,
accumulated state cleared, the other slot untouched), and neither sets
the triggered flag nor emits a processed event. -/
theorem c4_wake_timeout_resets (now t : Nat) (s : SupState)
    (he : s.errFlag = none) (htr : s.triggered = false)
    (hl : s.lstate = LState.wakeDetected t) (hel : 3000 < now - t)
    (ha : s.pool.active ≤ 1) :
    (sup_iter now s).st.lstate = LState.idle
    ∧ (sup_iter now s).resetActive = true
    ∧ (sup_iter now s).st.triggered = false
    ∧ (sup_iter now s).processed = false
    ∧ (sup_iter now s).st.pool.active = s.pool.active
    ∧ ((sup_iter now s).st.pool.get s.pool.active).sessionId
        = (s.pool.get s.pool.active).sessionId
    ∧ ((sup_iter now s).st.pool.get s.pool.active).pending = []
    ∧ (sup_iter now s).st.pool.get (1 - s.pool.active)
        = s.pool.get (1 - s.pool.active) := by
  have h350 : 350 < now - t := by omega
  obtain ⟨h1, h2, h3, h4⟩ := resetActive_facts s.pool ha
  rcases s with ⟨pool, errFlag, trig, lst, lp⟩
  simp only at he htr hl h1 h2 h3 h4
  subst he htr hl
  simp [sup_iter, h350, hel, h1, h2, h3, h4]

/-- C4 witness. -/
theorem c4_witness :
    (sup_iter 5000 (SupState.mk
        (Pool.mk (RecState.mk 0 [1]) (RecState.mk 1 [2]) 0) none false
        (LState.wakeDetected 0) true)).st.lstate = LState.idle
    ∧ (sup_iter 5000 (SupState.mk
        (Pool.mk (RecState.mk 0 [1]) (RecState.mk 1 [2]) 0) none false
        (LState.wakeDetected 0) true)).resetActive = true
    ∧ (sup_iter 5000 (SupState.mk
        (Pool.mk (RecState.mk 0 [1]) (RecState.mk 1 [2]) 0) none false
        (LState.wakeDetected 0) true)).st.triggered = false
    ∧ (sup_iter 5000 (SupState.mk
        (Pool.mk (RecState.mk 0 [1]) (RecState.mk 1 [2]) 0) none false
        (LState.wakeDetected 0) true)).processed = false
    ∧ (sup_iter 5000 (SupState.mk
        (Pool.mk (RecState.mk 0 [1]) (RecState.mk 1 [2]) 0) none false
        (LState.wakeDetected 0) true)).st.pool.active
        = (Pool.mk (RecState.mk 0 [1]) (RecState.mk 1 [2]) 0).active
    ∧ ((sup_iter 5000 (SupState.mk
        (Pool.mk (RecState.mk 0 [1]) (RecState.mk 1 [2]) 0) none false
        (LState.wakeDetected 0) true)).st.pool.get
          (Pool.mk (RecState.mk 0 [1]) (RecState.mk 1 [2]) 0).active).sessionId
        = ((Pool.mk (RecState.mk 0 [1]) (RecState.mk 1 [2]) 0).get
            (Pool.mk (RecState.mk 0 [1]) (RecState.mk 1 [2]) 0).active).sessionId
    ∧ ((sup_iter 5000 (SupState.mk
        (Pool.mk (RecState.mk 0 [1]) (RecState.mk 1 [2]) 0) none false
        (LState.wakeDetected 0) true)).st.pool.get
          (Pool.mk (RecState.mk 0 [1]) (RecState.mk 1 [2]) 0).active).pending = []
    ∧ (sup_iter 5000 (SupState.mk
        (Pool.mk (RecState.mk 0 [1]) (RecState.mk 1 [2]) 0) none false
        (LState.wakeDetected 0) true)).st.pool.get
          (1 - (Pool.mk (RecState.mk 0 [1]) (RecState.mk 1 [2]) 0).active)
        = (Pool.mk (RecState.mk 0 [1]) (RecState.mk 1 [2]) 0).get
            (1 - (Pool.mk (RecState.mk 0 [1]) (RecState.mk 1 [2]) 0).active) :=
  c4_wake_timeout_resets 5000 0
    (SupState.mk (Pool.mk (RecState.mk 0 [1]) (RecState.mk 1 [2]) 0) none false
      (LState.wakeDetected 0) true)
    rfl rfl rfl (by decide) (by decide)

/-- C10: on every capture push for which the decoder reports Running,
the free-running u32 counter (a process-wide static independent of the
rotation mechanism) is incremented with wraparound; whenever the
incremented counter hits a multiple of 1000 the recognizer handed to the
call, which is the active one, is reset, discarding its accumulated
waveform, and otherwise the waveform accumulates; the listening state,
the trigger flag and the recorded command are untouched, the session is
never replaced, and starting from a fresh counter the value after n
Running pushes is n mod 2^32, so with realistic push counts a reset
happens exactly on every 1000th push. -/
theorem c10_running_counter_reset (pcm : List Int) (ws : List Str)
    (now : Nat) (r : RecState) (m : Machine) :
    (create_waveform_match .running pcm ws now r m).2.callCount
        = (m.callCount + 1) % 4294967296
    ∧ (create_waveform_match .running pcm ws now r m).2.triggered = m.triggered
    ∧ (create_waveform_match .running pcm ws now r m).2.state = m.state
    ∧ (create_waveform_match .running pcm ws now r m).2.lastCommand = m.lastCommand
    ∧ (create_waveform_match .running pcm ws now r m).1.sessionId = r.sessionId
    ∧ (create_waveform_match .running pcm ws now r m).1.pending
        = (if ((m.callCount + 1) % 4294967296) % 1000 = 0 then []
           else r.pending ++ pcm)
    ∧ (∀ n : Nat,
        (iterRunning pcm ws now n (r, { m with callCount := 0 })).2.callCount
          = n % 4294967296) := by
  refine ⟨rfl, rfl, rfl, rfl, ?_, ?_, iterRunning_callCount pcm ws now r m⟩
  · simp only [create_waveform_match]
    split <;> rfl
  · simp only [create_waveform_match]
    split <;> simp [*]

/-! ## Lemmas for the downmix claims -/

lemma chunksExactAux_length :
    ∀ (fuel c : Nat), 0 < c → ∀ l : List Int, l.length ≤ fuel →
      (chunksExactAux fuel c l).length = l.length / c := by
  intro fuel
  induction fuel with
  | zero =>
      intro c hc l hl
      have h0 : l.length = 0 := Nat.le_zero.mp hl
      simp [chunksExactAux, h0]
  | succ fuel ih =>
      intro c hc l hl
      simp only [chunksExactAux]
      split
      · next hcond =>
          simp only [List.length_cons]
          rw [ih c hc (l.drop c) (by simp only [List.length_drop]; omega)]
          rw [List.length_drop]
          conv_rhs => rw [Nat.div_eq l.length c]
          rw [if_pos ⟨hc, hcond.2⟩]
      · next hcond =>
          have hlt : l.length < c := by
            rcases Nat.lt_or_ge l.length c with h1 | h1
            · exact h1
            · exact absurd ⟨hc, h1⟩ hcond
          simp [Nat.div_eq_of_lt hlt]

lemma chunksExactAux_frame_len :
    ∀ (fuel c : Nat), 0 < c → ∀ l : List Int, l.length ≤ fuel →
      ∀ f ∈ chunksExactAux fuel c l, f.length = c := by
  intro fuel
  induction fuel with
  | zero => intro c hc l hl f hf; simp [chunksExactAux] at hf
  | succ fuel ih =>
      intro c hc l hl f hf
      simp only [chunksExactAux] at hf
      by_cases hcond : 0 < c ∧ c ≤ l.length
      · rw [if_pos hcond] at hf
        rcases List.mem_cons.mp hf with h | h
        · subst h; simp only [List.length_take]; omega
        · exact ih c hc (l.drop c) (by simp only [List.length_drop]; omega) f h
      · rw [if_neg hcond] at hf
        simp at hf

lemma chunksExact_length (c : Nat) (hc : 0 < c) (l : List Int) :
    (chunksExact c l).length = l.length / c :=
  chunksExactAux_length l.length c hc l (Nat.le_refl _)

lemma chunksExact_frame_len (c : Nat) (hc : 0 < c) (l : List Int)
    (f : List Int) (hf : f ∈ chunksExact c l) : f.length = c :=
  chunksExactAux_frame_len l.length c hc l (Nat.le_refl _) f hf

lemma foldl_add_init (l : List Int) :
    ∀ a b : Int, l.foldl (fun x s => x + s) (a + b)
      = l.foldl (fun x s => x + s) a + b := by
  induction l with
  | nil => intro a b; rfl
  | cons s t ih =>
      intro a b
      simp only [List.foldl]
      rw [show a + b + s = a + s + b by ring]
      exact ih (a + s) b

lemma foldl_conv_u16 (l : List Int) :
    ∀ a : Int, l.foldl (fun x s => x + (s - 32768)) a
      = l.foldl (fun x s => x + s) a - 32768 * l.length := by
  induction l with
  | nil => intro a; simp
  | cons s t ih =>
      intro a
      simp only [List.foldl, List.length_cons]
      rw [ih (a + (s - 32768)),
          show a + (s - 32768) = a + s + -32768 by ring,
          foldl_add_init]
      push_cast
      ring

lemma frameAvgU16_eq (c : Nat) (f : List Int) (hf : f.length = c) :
    frameAvgU16 c f
      = clampI16 (Int.tdiv
          (f.foldl (fun x s => x + s) 0 - 32768 * (c : Int)) (c : Int)) := by
  unfold frameAvgU16
  rw [foldl_conv_u16 f 0, hf]

/-- C3 counterexample: at channel count 2 with unsigned samples 0 and 1,
the code (which converts each channel sample by subtracting 32768 before
summing, then divides with truncation toward zero) yields -32767, while
the procedure the claim describes (sum the raw channel values, divide
with truncation, only then subtract 32768) yields -32768. -/
theorem c3_u16_conversion_order_cex :
    downmix_u16 2 [0, 1] = [-32767]
    ∧ downmix_u16_claimed 2 [0, 1] = [-32768] := by decide

/-- C3 amended: for C greater than 1 both adapters produce exactly
floor(N / C) mono samples; the signed-16 adapter averages the raw
channel sums with truncation toward zero and clamps, as the claim
states, while the unsigned-16 adapter applies the subtract-32768
conversion to each channel value before summing, so each output sample
is the clamped truncated quotient of the frame sum minus 32768 * C. -/
theorem c3_downmix_amended (c : Nat) (dI dU : List Int) (hc : 1 < c) :
    (downmix_i16 c dI).length = dI.length / c
    ∧ downmix_i16 c dI = (chunksExact c dI).map
        (fun f => clampI16 (Int.tdiv (f.foldl (fun x s => x + s) 0) (c : Int)))
    ∧ (downmix_u16 c dU).length = dU.length / c
    ∧ downmix_u16 c dU = (chunksExact c dU).map
        (fun f => clampI16 (Int.tdiv
          (f.foldl (fun x s => x + s) 0 - 32768 * (c : Int)) (c : Int))) := by
  have hc0 : 0 < c := by omega
  have hcn : ¬ c ≤ 1 := by omega
  refine ⟨?_, ?_, ?_, ?_⟩
  · rw [downmix_i16, if_neg hcn, List.length_map, chunksExact_length c hc0]
  · rw [downmix_i16, if_neg hcn]; rfl
  · rw [downmix_u16, if_neg hcn, List.length_map, chunksExact_length c hc0]
  · rw [downmix_u16, if_neg hcn]
    exact List.map_congr_left
      (fun f hf => frameAvgU16_eq c f (chunksExact_frame_len c hc0 dU f hf))

/-- C3 witness. -/
theorem c3_witness :
    (downmix_i16 2 [1, 2, 3]).length = [1, 2, 3].length / 2
    ∧ downmix_i16 2 [1, 2, 3] = (chunksExact 2 [1, 2, 3]).map
        (fun f => clampI16 (Int.tdiv (f.foldl (fun x s => x + s) 0) (2 : Int)))
    ∧ (downmix_u16 2 [0, 1]).length = [0, 1].length / 2
    ∧ downmix_u16 2 [0, 1] = (chunksExact 2 [0, 1]).map
        (fun f => clampI16 (Int.tdiv
          (f.foldl (fun x s => x + s) 0 - 32768 * (2 : Int)) (2 : Int))) :=
  c3_downmix_amended 2 [1, 2, 3] [0, 1] (by decide)

/-! ## Lemmas for the wake-word matching claim -/

lemma firstOccur_occurs :
    ∀ (t w : Str) (p : Nat), firstOccur t w = some p → w <+: t.drop p := by
  intro t
  induction t with
  | nil =>
      intro w p h
      simp only [firstOccur] at h
      split at h
      · next hw => injection h with h1; subst h1; subst hw; simp
      · cases h
  | cons c rest ih =>
      intro w p h
      simp only [firstOccur] at h
      split at h
      · next hw =>
          injection h with h1; subst h1
          simpa using List.isPrefixOf_iff_prefix.mp hw
      · next hw =>
          rcases Option.map_eq_some'.mp h with ⟨q, hq, rfl⟩
          simpa using ih w q hq

lemma firstOccur_least :
    ∀ (t w : Str) (p : Nat), firstOccur t w = some p →
      ∀ q : Nat, w <+: t.drop q → p ≤ q := by
  intro t
  induction t with
  | nil =>
      intro w p h q hq
      simp only [firstOccur] at h
      split at h
      · injection h with h1; omega
      · cases h
  | cons c rest ih =>
      intro w p h q hq
      simp only [firstOccur] at h
      split at h
      · injection h with h1; omega
      · next hw =>
          rcases Option.map_eq_some'.mp h with ⟨p0, hp0, rfl⟩
          cases q with
          | zero =>
              exact absurd (List.isPrefixOf_iff_prefix.mpr (by simpa using hq)) hw
          | succ q0 =>
              have := ih w p0 hp0 q0 (by simpa using hq)
              omega

lemma firstOccur_none_no_occur :
    ∀ (t w : Str), firstOccur t w = none →
      ∀ q : Nat, ¬ (w <+: t.drop q) := by
  intro t
  induction t with
  | nil =>
      intro w h q hq
      simp only [firstOccur] at h
      split at h
      · cases h
      · next hw => exact hw (List.prefix_nil.mp (by simpa using hq))
  | cons c rest ih =>
      intro w h q hq
      simp only [firstOccur] at h
      split at h
      · cases h
      · next hw =>
          have hnone : firstOccur rest w = none := Option.map_eq_none'.mp h
          cases q with
          | zero => exact hw (List.isPrefixOf_iff_prefix.mpr (by simpa using hq))
          | succ q0 => exact ih w hnone q0 (by simpa using hq)

lemma cwwFind_some :
    ∀ (ws : List Str) (t : Str) (res : Str), cwwFind t ws = some res →
      ∃ i p, i < ws.length
        ∧ (∀ j, j < i → firstOccur t (ws.getD j []) = none)
        ∧ firstOccur t (ws.getD i []) = some p
        ∧ res = (if trimStr (t.drop (p + (ws.getD i []).length)) = []
                 then ws.getD i []
                 else ws.getD i []
                        ++ ' ' :: trimStr (t.drop (p + (ws.getD i []).length))) := by
  intro ws
  induction ws with
  | nil => intro t res h; cases h
  | cons w rest ih =>
      intro t res h
      cases hfo : firstOccur t w with
      | some pos =>
          simp only [cwwFind, hfo] at h
          refine ⟨0, pos, by simp, ?_, ?_, ?_⟩
          · intro j hj; exact absurd hj (Nat.not_lt_zero j)
          · simpa using hfo
          · simp only [List.getD_cons_zero]
            split at h
            · next hcond => rw [if_pos hcond]; injection h with h1; exact h1.symm
            · next hcond => rw [if_neg hcond]; injection h with h1; exact h1.symm
      | none =>
          simp only [cwwFind, hfo] at h
          rcases ih t res h with ⟨i, p, hi, hjs, hip, hres⟩
          refine ⟨i + 1, p, by simpa using Nat.succ_lt_succ hi, ?_, ?_, ?_⟩
          · intro j hj
            cases j with
            | zero => simpa using hfo
            | succ j0 => simpa using hjs j0 (by omega)
          · simpa using hip
          · simpa using hres

/-- C7 counterexample: matching is not case-insensitive with respect to
the configured phrases.  The transcript contains the configured phrase
up to letter case, yet with the phrase spelled with capitals no match is
found, while the identical phrase spelled in lower case matches. -/
theorem c7_phrase_case_sensitivity_cex :
    contains_wake_word ("hey iris now").data [("Hey Iris").data] = none
    ∧ contains_wake_word ("hey iris now").data [("hey iris").data]
        = some (("hey iris now").data) := by decide

/-- C7 amended: matching is case-insensitive with respect to the
transcript only, which is trimmed and lower-cased before the search
(the result depends only on that normalization); each configured phrase
is searched verbatim, the first phrase in list order that occurs in the
normalized transcript wins at its leftmost occurrence, and the trimmed
text after the match, when non-empty, is appended after the phrase in
the returned match. -/
theorem c7_matching_amended (text : Str) (ws : List Str) :
    (∀ t2 : Str, normalizeText t2 = normalizeText text →
        contains_wake_word t2 ws = contains_wake_word text ws)
    ∧ (∀ res : Str, contains_wake_word text ws = some res →
        normalizeText text ≠ []
        ∧ ∃ i p, i < ws.length
            ∧ (∀ j, j < i → ∀ q : Nat,
                ¬ (ws.getD j [] <+: (normalizeText text).drop q))
            ∧ ws.getD i [] <+: (normalizeText text).drop p
            ∧ (∀ q : Nat, ws.getD i [] <+: (normalizeText text).drop q → p ≤ q)
            ∧ res = (if trimStr ((normalizeText text).drop
                        (p + (ws.getD i []).length)) = []
                     then ws.getD i []
                     else ws.getD i [] ++ ' ' :: trimStr ((normalizeText text).drop
                            (p + (ws.getD i []).length)))) := by
  constructor
  · intro t2 h
    simp only [contains_wake_word, h]
  · intro res h
    rw [contains_wake_word] at h
    by_cases hn : normalizeText text = []
    · rw [if_pos hn] at h; cases h
    · rw [if_neg hn] at h
      refine ⟨hn, ?_⟩
      rcases cwwFind_some ws (normalizeText text) res h with ⟨i, p, hi, hjs, hip, hres⟩
      exact ⟨i, p, hi,
        fun j hj q =>
          firstOccur_none_no_occur (normalizeText text) (ws.getD j []) (hjs j hj) q,
        firstOccur_occurs (normalizeText text) (ws.getD i []) p hip,
        fun q hq => firstOccur_least (normalizeText text) (ws.getD i []) p hip q hq,
        hres⟩

/-- C7 witness: the amended theorem applied at a transcript spelled with
capitals, which normalizes to the same text as its lower-case spelling
and hence matches identically. -/
theorem c7_witness :
    contains_wake_word ("HEY iris Now").data [("hey iris").data]
      = contains_wake_word ("hey iris now").data [("hey iris").data] :=
  (c7_matching_amended ("hey iris now").data [("hey iris").data]).1
    ("HEY iris Now").data (by decide)
